import Mathlib

/-!
# Verification of the resumable-upload route

Shallow embedding of `src/app/api/upload/[[...slug]]/route.ts`, the TUS
upload route of the repository: the identifier codec (`generateUrl` /
`getFileIdFromRequest`, built on Node's base64url `Buffer` codec), the
metadata validator (`metadataSchema` / `onUploadCreate`), the naming
strategy (`namingFunction`, built on Node's `path.extname`/`path.basename`),
the post-completion integrity verifier (`verifyFileIntegrity` /
`computeChecksum` / `onUploadFinish`) and the `S3Store` part-size
configuration.  I/O boundaries (the S3 client, `JSON.parse`, the fixture
filesystem) enter as explicit function parameters; JavaScript exceptions
are `Except`; `console` output is an explicit structured log.
-/

namespace UploadRoute

/-! ## Node base64url codec

Models `Buffer.from(s, "utf-8").toString("base64url")` and
`Buffer.from(s, "base64url").toString("utf-8")` (route.ts lines 154-160).
Bytes are `Nat`s below 256, sextets `Nat`s below 64.
-/

/-- The base64url alphabet: `A-Z a-z 0-9 - _` (RFC 4648 §5, what Node's
`"base64url"` encoding emits). -/
def b64Char (n : Nat) : Char :=
  if n < 26 then Char.ofNat (65 + n)
  else if n < 52 then Char.ofNat (97 + (n - 26))
  else if n < 62 then Char.ofNat (48 + (n - 52))
  else if n = 62 then '-'
  else '_'

/-- Inverse alphabet lookup.  Node's `"base64url"` decoder accepts both
the url-safe alphabet (`-`, `_`) and the regular base64 one (`+`, `/`):
the docs state this encoding "will also correctly accept regular
base64-encoded strings".  Characters in neither alphabet map to `none`
and are dropped; `=` is not a sextet — the caller treats it as the
padding terminator. -/
def b64Val? (c : Char) : Option Nat :=
  if 65 ≤ c.toNat ∧ c.toNat ≤ 90 then some (c.toNat - 65)
  else if 97 ≤ c.toNat ∧ c.toNat ≤ 122 then some (c.toNat - 97 + 26)
  else if 48 ≤ c.toNat ∧ c.toNat ≤ 57 then some (c.toNat - 48 + 52)
  else if c = '-' ∨ c = '+' then some 62
  else if c = '_' ∨ c = '/' then some 63
  else none

/-- Base64 bit-packing: groups of 3 bytes become 4 sextets; a trailing
2-byte group becomes 3 sextets and a trailing 1-byte group 2 sextets
(unpadded, as Node's `"base64url"` output). -/
def bytesToSextets : List Nat → List Nat
  | b0 :: b1 :: b2 :: rest =>
      (b0 / 4) :: ((b0 % 4) * 16 + b1 / 16) :: ((b1 % 16) * 4 + b2 / 64) :: (b2 % 64) ::
        bytesToSextets rest
  | [b0, b1] => [b0 / 4, (b0 % 4) * 16 + b1 / 16, (b1 % 16) * 4]
  | [b0] => [b0 / 4, (b0 % 4) * 16]
  | [] => []

/-- Base64 bit-unpacking: groups of 4 sextets become 3 bytes; a trailing
group of 3 sextets yields 2 bytes, of 2 sextets 1 byte, and a lone
trailing sextet is dropped — Node's forgiving group handling. -/
def sextetsToBytes : List Nat → List Nat
  | s0 :: s1 :: s2 :: s3 :: rest =>
      (s0 * 4 + s1 / 16) :: ((s1 % 16) * 16 + s2 / 4) :: ((s2 % 4) * 64 + s3) ::
        sextetsToBytes rest
  | [s0, s1, s2] => [s0 * 4 + s1 / 16, (s1 % 16) * 16 + s2 / 4]
  | [s0, s1] => [s0 * 4 + s1 / 16]
  | [_] => []
  | [] => []

/-- `Buffer#toString("base64url")`: pack into sextets, map through the
alphabet, no padding. -/
def b64urlEncodeBytes (bs : List Nat) : List Char :=
  (bytesToSextets bs).map b64Char

/-- The sextet stream Node's decoder reads from a string: decoding stops
at the first `=` (the padding terminator); within the decoded region
every character outside the two accepted alphabets is silently
dropped. -/
def b64Sextets (cs : List Char) : List Nat :=
  (cs.takeWhile fun c => !(c == '=')).filterMap b64Val?

/-- `Buffer.from(s, "base64url")`: Node's forgiving decoder — stop at
the first `=`, drop other invalid characters, unpack what remains. -/
def b64urlDecodeBytes (cs : List Char) : List Nat :=
  sextetsToBytes (b64Sextets cs)

/-! ## Node UTF-8 codec

Models `Buffer.from(s, "utf-8")` (UTF-8 encoding of a sequence of Unicode
scalar values) and `Buffer#toString("utf-8")` (V8's forgiving decoder:
WHATWG replacement-character semantics, total on arbitrary bytes).
-/

/-- U+FFFD, emitted by the forgiving decoder for every invalid byte. -/
def replacementChar : Char := Char.ofNat 0xFFFD

/-- Lower bound for the first continuation byte after lead `b0`
(WHATWG encoding standard, "UTF-8 decoder"). -/
def contLo (b0 : Nat) : Nat :=
  if b0 = 0xe0 then 0xa0 else if b0 = 0xf0 then 0x90 else 0x80

/-- Upper bound (exclusive) for the first continuation byte after lead
`b0` (WHATWG encoding standard, "UTF-8 decoder"). -/
def contHi (b0 : Nat) : Nat :=
  if b0 = 0xed then 0xa0 else if b0 = 0xf4 then 0x90 else 0xc0

/-- UTF-8 encoding of one Unicode scalar value given as a `Nat`. -/
def utf8EncodeNat (n : Nat) : List Nat :=
  if n < 0x80 then [n]
  else if n < 0x800 then [0xc0 + n / 64, 0x80 + n % 64]
  else if n < 0x10000 then [0xe0 + n / 4096, 0x80 + n / 64 % 64, 0x80 + n % 64]
  else [0xf0 + n / 262144, 0x80 + n / 4096 % 64, 0x80 + n / 64 % 64, 0x80 + n % 64]

/-- UTF-8 encoding of one character. -/
def utf8EncodeChar (c : Char) : List Nat :=
  utf8EncodeNat c.toNat

/-- `Buffer.from(s, "utf-8")`: concatenated UTF-8 encodings. -/
def utf8Encode (cs : List Char) : List Nat :=
  cs.flatMap utf8EncodeChar

/-- One step of the forgiving UTF-8 decoder on lead byte `b0` with tail
`rest`: the decoded character (U+FFFD on error) and the bytes to resume
at.  Invalid leads, out-of-range continuations and truncated sequences
yield U+FFFD and resume at the offending byte, per the WHATWG algorithm
V8 implements. -/
def utf8Step (b0 : Nat) (rest : List Nat) : Char × List Nat :=
  if b0 < 0x80 then (Char.ofNat b0, rest)
  else if b0 < 0xc2 then (replacementChar, rest)
  else if b0 < 0xe0 then
    match rest with
    | [] => (replacementChar, [])
    | b1 :: rest1 =>
      if 0x80 ≤ b1 ∧ b1 < 0xc0 then
        (Char.ofNat ((b0 - 0xc0) * 64 + (b1 - 0x80)), rest1)
      else (replacementChar, b1 :: rest1)
  else if b0 < 0xf0 then
    match rest with
    | [] => (replacementChar, [])
    | b1 :: rest1 =>
      if contLo b0 ≤ b1 ∧ b1 < contHi b0 then
        match rest1 with
        | [] => (replacementChar, [])
        | b2 :: rest2 =>
          if 0x80 ≤ b2 ∧ b2 < 0xc0 then
            (Char.ofNat ((b0 - 0xe0) * 4096 + (b1 - 0x80) * 64 + (b2 - 0x80)), rest2)
          else (replacementChar, b2 :: rest2)
      else (replacementChar, b1 :: rest1)
  else if b0 < 0xf5 then
    match rest with
    | [] => (replacementChar, [])
    | b1 :: rest1 =>
      if contLo b0 ≤ b1 ∧ b1 < contHi b0 then
        match rest1 with
        | [] => (replacementChar, [])
        | b2 :: rest2 =>
          if 0x80 ≤ b2 ∧ b2 < 0xc0 then
            match rest2 with
            | [] => (replacementChar, [])
            | b3 :: rest3 =>
              if 0x80 ≤ b3 ∧ b3 < 0xc0 then
                (Char.ofNat
                    ((b0 - 0xf0) * 262144 + (b1 - 0x80) * 4096 + (b2 - 0x80) * 64 +
                      (b3 - 0x80)),
                  rest3)
              else (replacementChar, b3 :: rest3)
          else (replacementChar, b2 :: rest2)
      else (replacementChar, b1 :: rest1)
  else (replacementChar, rest)

/-- `Buffer#toString("utf-8")`: total forgiving decoder, iterating
`utf8Step`. -/
def utf8DecodeF : List Nat → List Char
  | [] => []
  | b0 :: rest =>
    (utf8Step b0 rest).1 :: utf8DecodeF (utf8Step b0 rest).2
termination_by l => l.length
decreasing_by
  simp_wf
  have hle : ∀ (b : Nat) (l : List Nat), (utf8Step b l).2.length ≤ l.length := by
    intro b l
    unfold utf8Step
    repeat' split
    all_goals simp_arith [List.length_cons]
  exact Nat.lt_succ_of_le (hle _ _)

/-! ## Identifier codec (route.ts lines 154-160) -/

/-- The encoded identifier segment produced by `generateUrl`
(route.ts line 155): `Buffer.from(id, "utf-8").toString("base64url")`. -/
def encodeId (id : String) : String :=
  String.mk (b64urlEncodeBytes (utf8Encode id.data))

/-- `generateUrl` (route.ts lines 154-157): re-encodes the id and splices
it as the final path segment of the upload URL. -/
def generateUrl (proto host basePath id : String) : String :=
  proto ++ "://" ++ host ++ basePath ++ "/" ++ encodeId id

/-- `getFileIdFromRequest` (route.ts lines 158-160):
`Buffer.from(lastPath, "base64url").toString("utf-8")`. -/
def getFileIdFromRequest (lastPath : String) : String :=
  String.mk (utf8DecodeF (b64urlDecodeBytes lastPath.data))

/-! ## Metadata validation (route.ts lines 108-141) -/

/-- A raw TUS metadata record as the server hands it to the hook: keys
mapped to values, where a bare `Upload-Metadata` key surfaces with no
value (`null`). -/
abbrev RawMetadata := List (String × Option String)

/-- The shape `metadataSchema` parses into (route.ts lines 108-115). -/
structure UploadMetadata where
  objectName : String
  type : String
  contentType : String
  name : String
deriving DecidableEq

def metaLookup (m : RawMetadata) (k : String) : Option (Option String) :=
  (m.find? (fun p => p.1 == k)).map Prod.snd

/-- One required field of `metadataSchema`: the key must be present and
bound to a string of length ≥ 1 (`z.string().min(1)`). -/
def requireNonEmpty (m : RawMetadata) (k : String) : Option String :=
  match metaLookup m k with
  | some (some v) => if 1 ≤ v.length then some v else none
  | _ => none

/-- `metadataSchema.safeParse` (route.ts lines 108-113): an object schema
requiring `objectName`, `type`, `contentType` and `name`, each a
non-empty string; unknown keys are ignored (zod object strip mode). -/
def safeParseMetadata (m : RawMetadata) : Option UploadMetadata :=
  match requireNonEmpty m "objectName", requireNonEmpty m "type",
      requireNonEmpty m "contentType", requireNonEmpty m "name" with
  | some objectName, some ty, some contentType, some nm =>
      some ⟨objectName, ty, contentType, nm⟩
  | _, _, _, _ => none

/-- The thrown object `{status_code: 400, body: "invalid metadata"}`
and, more generally, hook error results carried to the wire. -/
structure HttpError where
  status_code : Nat
  body : String
deriving DecidableEq

/-- `onUploadCreate` (route.ts lines 133-141): run `safeParse` on the
upload's metadata; throw `{status_code: 400, body: "invalid metadata"}`
if it fails, otherwise return the parsed metadata. -/
def onUploadCreate (m : RawMetadata) : Except HttpError UploadMetadata :=
  match safeParseMetadata m with
  | none => .error ⟨400, "invalid metadata"⟩
  | some md => .ok md

/-! ## Hex encoding (`Buffer#toString("hex")`) -/

/-- Lowercase hex digit for a value below 16. -/
def hexDigit (n : Nat) : Char :=
  if n < 10 then Char.ofNat (48 + n) else Char.ofNat (87 + n)

/-- `Buffer#toString("hex")`: two lowercase hex digits per byte. -/
def bytesToHex (bs : List Nat) : String :=
  String.mk (bs.flatMap fun b => [hexDigit (b / 16), hexDigit (b % 16)])

/-! ## Node `path.posix` (`extname`, `basename`)

Models the two `node:path` functions the route uses, per Node's posix
implementation: trailing slashes are ignored, the extension starts at
the last dot of the basename unless that dot is its first character,
and the whole-string special cases (`".."`, suffix equal to the whole
path) are reproduced.
-/

/-- Trailing `/` characters are ignored by both functions. -/
def stripTrailingSlashes (l : List Char) : List Char :=
  (l.reverse.dropWhile (fun c => c == '/')).reverse

/-- The portion after the last `/`. -/
def afterLastSlash (l : List Char) : List Char :=
  (l.reverse.takeWhile (fun c => !(c == '/'))).reverse

/-- Index of the last `.`, if any. -/
def lastDotIdx (l : List Char) : Option Nat :=
  match l.reverse.findIdx? (fun c => c == '.') with
  | none => none
  | some i => some (l.length - 1 - i)

/-- Node `path.posix.extname`: the suffix of the basename from its last
dot; empty when there is no dot, when the last dot is the basename's
first character (dotfiles), or for the basename `".."`. -/
def pathExtname (p : String) : String :=
  let base := afterLastSlash (stripTrailingSlashes p.data)
  match lastDotIdx base with
  | none => ""
  | some 0 => ""
  | some d => if base = ['.', '.'] then "" else String.mk (base.drop d)

/-- Node `path.posix.basename(path, suffix)`: the basename with `suffix`
removed when `suffix` is a proper suffix of it; a suffix equal to the
whole path yields `""`, a suffix equal to the whole basename is kept. -/
def pathBasename (p ext : String) : String :=
  let base := afterLastSlash (stripTrailingSlashes p.data)
  if 0 < ext.data.length ∧ ext.data.length ≤ p.data.length then
    if ext = p then ""
    else if ext.data.length < base.length ∧ ext.data.isSuffixOf base then
      String.mk (base.take (base.length - ext.data.length))
    else String.mk base
  else String.mk base

/-! ## Naming strategy (route.ts lines 142-153) -/

/-- `namingFunction` (route.ts lines 142-153).  The 16 random bytes of
`randomBytes(16)` enter as the parameter `rb`; the rest is the source's
deterministic assembly: hex-encode the bytes, split the extension off
`metadata.objectName`, and build `debug/file-<hex>-<stem><ext>`. -/
def namingFunction (rb : List Nat) (metadata : UploadMetadata) : String :=
  let fileExtension := pathExtname metadata.objectName
  let fileName := pathBasename metadata.objectName fileExtension
  let randomString := bytesToHex rb
  let parsedFilename := "file-" ++ randomString ++ "-" ++ fileName
  "debug/" ++ parsedFilename ++ fileExtension

/-! ## SHA-256 (`createHash("sha256")`, route.ts lines 28-30)

FIPS 180-4 over byte lists; 32-bit words are `Nat`s reduced mod `2^32`.
-/

/-- Truncation to 32 bits. -/
def w32 (n : Nat) : Nat := n % 4294967296

/-- 32-bit right rotation by `k`. -/
def rotr (k x : Nat) : Nat := w32 (x / 2 ^ k + x % 2 ^ k * 2 ^ (32 - k))

def bigSigma0 (x : Nat) : Nat := rotr 2 x ^^^ rotr 13 x ^^^ rotr 22 x

def bigSigma1 (x : Nat) : Nat := rotr 6 x ^^^ rotr 11 x ^^^ rotr 25 x

def smallSigma0 (x : Nat) : Nat := rotr 7 x ^^^ rotr 18 x ^^^ x / 2 ^ 3

def smallSigma1 (x : Nat) : Nat := rotr 17 x ^^^ rotr 19 x ^^^ x / 2 ^ 10

def chFn (x y z : Nat) : Nat := x &&& y ^^^ (4294967295 - w32 x) &&& z

def majFn (x y z : Nat) : Nat := x &&& y ^^^ x &&& z ^^^ y &&& z

def sha256K : List Nat :=
  [1116352408, 1899447441, 3049323471, 3921009573, 961987163,
   1508970993, 2453635748, 2870763221, 3624381080, 310598401,
   607225278, 1426881987, 1925078388, 2162078206, 2614888103,
   3248222580, 3835390401, 4022224774, 264347078, 604807628,
   770255983, 1249150122, 1555081692, 1996064986, 2554220882,
   2821834349, 2952996808, 3210313671, 3336571891, 3584528711,
   113926993, 338241895, 666307205, 773529912, 1294757372,
   1396182291, 1695183700, 1986661051, 2177026350, 2456956037,
   2730485921, 2820302411, 3259730800, 3345764771, 3516065817,
   3600352804, 4094571909, 275423344, 430227734, 506948616,
   659060556, 883997877, 958139571, 1322822218, 1537002063,
   1747873779, 1955562222, 2024104815, 2227730452, 2361852424,
   2428436474, 2756734187, 3204031479, 3329325298]

def sha256H0 : List Nat :=
  [1779033703, 3144134277, 1013904242, 2773480762,
   1359893119, 2600822924, 528734635, 1541459225]

/-- Merkle–Damgård padding: `0x80`, zeros to 56 mod 64, then the bit
length as 8 big-endian bytes. -/
def sha256Pad (msg : List Nat) : List Nat :=
  let padLen := (119 - msg.length % 64) % 64
  let bitLen := msg.length * 8
  msg ++ 0x80 :: List.replicate padLen 0 ++
    [bitLen / 2 ^ 56 % 256, bitLen / 2 ^ 48 % 256, bitLen / 2 ^ 40 % 256,
     bitLen / 2 ^ 32 % 256, bitLen / 2 ^ 24 % 256, bitLen / 2 ^ 16 % 256,
     bitLen / 2 ^ 8 % 256, bitLen % 256]

/-- Big-endian 32-bit words from bytes. -/
def bytesToWords : List Nat → List Nat
  | b0 :: b1 :: b2 :: b3 :: rest =>
      (b0 * 16777216 + b1 * 65536 + b2 * 256 + b3) :: bytesToWords rest
  | _ => []

/-- Extend the 16 block words by `k` schedule words. -/
def sha256Extend (ws : List Nat) : Nat → List Nat
  | 0 => ws
  | k + 1 =>
    let i := ws.length
    let w := w32 (smallSigma1 (ws.getD (i - 2) 0) + ws.getD (i - 7) 0 +
      smallSigma0 (ws.getD (i - 15) 0) + ws.getD (i - 16) 0)
    sha256Extend (ws ++ [w]) k

/-- One compression round; `kw` is the round constant paired with the
schedule word. -/
def sha256Round (st : List Nat) (kw : Nat × Nat) : List Nat :=
  match st with
  | [a, b, c, d, e, f, g, h] =>
    let t1 := w32 (h + bigSigma1 e + chFn e f g + kw.1 + kw.2)
    let t2 := w32 (bigSigma0 a + majFn a b c)
    [w32 (t1 + t2), a, b, c, w32 (d + t1), e, f, g]
  | st => st

/-- Compress one 64-byte block into the running hash state. -/
def sha256Block (hs : List Nat) (block : List Nat) : List Nat :=
  let ws := sha256Extend (bytesToWords block) 48
  let st := (List.zip sha256K ws).foldl sha256Round hs
  List.zipWith (fun x y => w32 (x + y)) hs st

def chunksOf64 : List Nat → List (List Nat)
  | [] => []
  | b :: l => ((b :: l).take 64) :: chunksOf64 ((b :: l).drop 64)
termination_by l => l.length
decreasing_by
  simp_wf
  try simp only [List.length_drop, List.length_cons]
  omega

/-- SHA-256 digest (32 bytes) of a byte list. -/
def sha256 (msg : List Nat) : List Nat :=
  let hs := (chunksOf64 (sha256Pad msg)).foldl sha256Block sha256H0
  hs.flatMap fun h => [h / 16777216 % 256, h / 65536 % 256, h / 256 % 256, h % 256]

/-- `computeChecksum` (route.ts lines 28-30):
`createHash("sha256").update(data).digest("hex")`. -/
def computeChecksum (data : List Nat) : String :=
  bytesToHex (sha256 data)

/-! ## Integrity verification (route.ts lines 32-106, 117-132)

The S3 client, `JSON.parse` of the `.info` file, and the
`test-fixtures` filesystem are the route's I/O boundary; they enter as
function parameters (`s3` maps a key to the stream's chunks,
`parseInfo` is `JSON.parse` + the `.size` field read, `fixtures` is
`readFile` keyed by original file name).  Thrown errors are `Except`
errors; `console` output is the returned log.
-/

/-- A thrown JavaScript error. -/
structure JsError where
  message : String
deriving DecidableEq

/-- The parsed TUS `.info` record, as used: its `size` field. -/
structure InfoData where
  size : Nat
deriving DecidableEq

/-- The route's `console` output as structured entries, in emission
order: `"Upload finished"`, the `⚠ Could not read original file` line,
the checksum-verification block and its comparison lines
(`checksumMatchLine true` is the `✗ NO - FILE CORRUPTED!` print), and
the outer catch's `Error during file integrity verification`. -/
inductive LogEntry where
  | uploadFinished
  | couldNotReadOriginal
  | checksumHeader (fileKey : String) (originalFileName : Option String)
  | originalChecksumLine (digest : String)
  | uploadedChecksumLine (digest : String)
  | checksumMatchLine (corrupted : Bool)
  | sizeLine (actualSize reportedSize : Nat) (sizeMatches : Bool)
  | verificationError
deriving DecidableEq

/-- `downloadFileFromS3` (route.ts lines 32-44): issue `GetObject` and
concatenate the body stream's chunks; a missing object is the SDK's
thrown error. -/
def downloadFileFromS3 (s3 : String → Option (List (List Nat))) (key : String) :
    Except JsError (List Nat) :=
  match s3 key with
  | none => .error ⟨"NoSuchKey"⟩
  | some chunks => .ok chunks.flatten

/-- The value `verifyFileIntegrity` returns on success (route.ts
line 101). -/
structure VerifyOk where
  uploadedChecksum : String
  originalChecksum : Option String
  uploadedFile : List Nat
  infoData : InfoData
deriving DecidableEq

/-- `verifyFileIntegrity` (route.ts lines 46-106): download the object
and its `.info` record, hash the object, optionally hash the local
reference copy (read failure is caught and logged, not rethrown), log
the comparisons, and return; any other failure is logged by the outer
catch and rethrown. -/
def verifyFileIntegrity (fileKey infoKey : String) (objectName : Option String)
    (s3 : String → Option (List (List Nat)))
    (parseInfo : List Nat → Option InfoData)
    (fixtures : String → Option (List Nat)) :
    Except JsError VerifyOk × List LogEntry :=
  match downloadFileFromS3 s3 fileKey with
  | .error e => (.error e, [.verificationError])
  | .ok uploadedFile =>
    let uploadedChecksum := computeChecksum uploadedFile
    match downloadFileFromS3 s3 infoKey with
    | .error e => (.error e, [.verificationError])
    | .ok infoFile =>
      match parseInfo infoFile with
      | none => (.error ⟨"SyntaxError"⟩, [.verificationError])
      | some infoData =>
        let origPair : Option String × List LogEntry :=
          match objectName with
          | none => (none, [])
          | some nm =>
            match fixtures nm with
            | none => (none, [.couldNotReadOriginal])
            | some origBytes => (some (computeChecksum origBytes), [])
        let originalChecksum := origPair.1
        let origLine : List LogEntry :=
          match originalChecksum with
          | none => []
          | some oc => [.originalChecksumLine oc]
        let cmpLine : List LogEntry :=
          match originalChecksum with
          | none => []
          | some oc => [.checksumMatchLine (!(oc == uploadedChecksum))]
        (.ok ⟨uploadedChecksum, originalChecksum, uploadedFile, infoData⟩,
          origPair.2 ++ [.checksumHeader fileKey objectName] ++ origLine ++
            [.uploadedChecksumLine uploadedChecksum] ++ cmpLine ++
            [.sizeLine uploadedFile.length infoData.size
              (uploadedFile.length == infoData.size)])

/-- The hook's successful result `{ status_code: 201 }`. -/
structure FinishResponse where
  status_code : Nat
deriving DecidableEq

/-- `onUploadFinish` (route.ts lines 120-132): log, and when
`upload.storage?.path` exists, `await verifyFileIntegrity` on it —
whose thrown error propagates out of the hook — before returning
`{status_code: 201}`. -/
def onUploadFinish (storagePath : Option String) (objectName : Option String)
    (s3 : String → Option (List (List Nat)))
    (parseInfo : List Nat → Option InfoData)
    (fixtures : String → Option (List Nat)) :
    Except JsError FinishResponse × List LogEntry :=
  match storagePath with
  | none => (.ok ⟨201⟩, [.uploadFinished])
  | some fileKey =>
    match verifyFileIntegrity fileKey (fileKey ++ ".info") objectName s3 parseInfo
        fixtures with
    | (.error e, vlog) => (.error e, LogEntry.uploadFinished :: vlog)
    | (.ok _, vlog) => (.ok ⟨201⟩, LogEntry.uploadFinished :: vlog)

/-! ## Store configuration (route.ts lines 21-24) -/

/-- The options object passed to `new S3Store({...})`. -/
structure S3StoreConfig where
  partSize : Nat
deriving DecidableEq

/-- `s3Store` (route.ts lines 21-24): `partSize: 1024`. -/
def s3Store : S3StoreConfig := { partSize := 1024 }

/-- Modelled from the spec: the storage provider's minimum multipart
part size — "the storage backend's real constraint that multipart
uploads require parts ≥ a minimum size (except the final part)" (§4.3).
The concrete bound is not under `src/`; it is S3's documented 5 MiB
minimum, the value `@tus/s3-store` encodes as `minPartSize = 5_242_880`
and Supabase's S3 endpoint enforces. -/
def providerMinPartSize : Nat := 5242880

/-! ## Create flow -/

/-- An upload session as far as creation is concerned: its storage key
and validated metadata. -/
structure Session where
  key : String
  metadata : UploadMetadata
deriving DecidableEq

/-- Sessions known to the server. -/
structure ServerState where
  sessions : List Session
deriving DecidableEq

/-- Modelled from the spec: the create flow of the protocol server
(`@tus/server`, a dependency not under `src/`) — "Create(...) validates
metadata (4.2) ... Fails with `ValidationError` if metadata is invalid"
(§4.4) and "`ValidationError` — malformed creation metadata ... never
partially creates a session" (§7): the `onUploadCreate` hook runs
before any session or storage mutation, and a thrown validation error
aborts the request leaving server state untouched. -/
def handleCreate (st : ServerState) (raw : RawMetadata) (key : String) :
    ServerState × Except HttpError Session :=
  match onUploadCreate raw with
  | .error e => (st, .error e)
  | .ok md => ({ sessions := st.sessions ++ [⟨key, md⟩] }, .ok ⟨key, md⟩)

/-- Spec-side validity condition for the creation metadata (spec §4.2):
each required key (`objectName`, `type`, `contentType`, `name`) is
present with a non-empty string value.  Stated from the spec's words,
to be compared with the source's `safeParseMetadata` above. -/
def specRequiredMetadataOk (m : RawMetadata) : Prop :=
  (∃ v, metaLookup m "objectName" = some (some v) ∧ v ≠ "") ∧
  (∃ v, metaLookup m "type" = some (some v) ∧ v ≠ "") ∧
  (∃ v, metaLookup m "contentType" = some (some v) ∧ v ≠ "") ∧
  (∃ v, metaLookup m "name" = some (some v) ∧ v ≠ "")

/-! ## Codec lemmas -/

theorem sextetsToBytes_bytesToSextets (bs : List Nat) (h : ∀ b ∈ bs, b < 256) :
    sextetsToBytes (bytesToSextets bs) = bs := by
  induction bs using bytesToSextets.induct with
  | case1 b0 b1 b2 rest ih =>
    have hb0 : b0 < 256 := h b0 (by simp)
    have hb1 : b1 < 256 := h b1 (by simp)
    have hb2 : b2 < 256 := h b2 (by simp)
    rw [bytesToSextets, sextetsToBytes, ih (fun b hb => h b (by simp [hb]))]
    refine congrArg₂ _ ?_ (congrArg₂ _ ?_ (congrArg₂ _ ?_ rfl)) <;> omega
  | case2 b0 b1 =>
    have hb0 : b0 < 256 := h b0 (by simp)
    have hb1 : b1 < 256 := h b1 (by simp)
    rw [bytesToSextets, sextetsToBytes]
    refine congrArg₂ _ ?_ (congrArg₂ _ ?_ rfl) <;> omega
  | case3 b0 =>
    have hb0 : b0 < 256 := h b0 (by simp)
    rw [bytesToSextets, sextetsToBytes]
    refine congrArg₂ _ ?_ rfl
    omega
  | case4 => rfl

theorem bytesToSextets_lt_64 (bs : List Nat) (h : ∀ b ∈ bs, b < 256) :
    ∀ s ∈ bytesToSextets bs, s < 64 := by
  induction bs using bytesToSextets.induct with
  | case1 b0 b1 b2 rest ih =>
    have hb0 : b0 < 256 := h b0 (by simp)
    have hb1 : b1 < 256 := h b1 (by simp)
    have hb2 : b2 < 256 := h b2 (by simp)
    intro s hs
    rw [bytesToSextets] at hs
    simp only [List.mem_cons] at hs
    rcases hs with rfl | rfl | rfl | rfl | hs
    · omega
    · omega
    · omega
    · omega
    · exact ih (fun b hb => h b (by simp [hb])) s hs
  | case2 b0 b1 =>
    have hb0 : b0 < 256 := h b0 (by simp)
    have hb1 : b1 < 256 := h b1 (by simp)
    intro s hs
    rw [bytesToSextets] at hs
    simp only [List.mem_cons, List.not_mem_nil, or_false] at hs
    rcases hs with rfl | rfl | rfl <;> omega
  | case3 b0 =>
    have hb0 : b0 < 256 := h b0 (by simp)
    intro s hs
    rw [bytesToSextets] at hs
    simp only [List.mem_cons, List.not_mem_nil, or_false] at hs
    rcases hs with rfl | rfl <;> omega
  | case4 => intro s hs; simp [bytesToSextets] at hs

theorem b64Val?_b64Char : ∀ n < 64, b64Val? (b64Char n) = some n := by
  decide

theorem b64Char_ne_padding : ∀ n < 64, (b64Char n == '=') = false := by
  decide

theorem takeWhile_map_b64Char (ss : List Nat) (h : ∀ s ∈ ss, s < 64) :
    ((ss.map b64Char).takeWhile fun c => !(c == '=')) = ss.map b64Char := by
  induction ss with
  | nil => rfl
  | cons s ss ih =>
    simp only [List.map_cons, List.takeWhile_cons, b64Char_ne_padding s (h s (by simp)),
      Bool.not_false, if_true]
    exact congrArg _ (ih fun x hx => h x (by simp [hx]))

theorem filterMap_b64Val?_map_b64Char (ss : List Nat) (h : ∀ s ∈ ss, s < 64) :
    (ss.map b64Char).filterMap b64Val? = ss := by
  induction ss with
  | nil => rfl
  | cons s ss ih =>
    simp only [List.map_cons, List.filterMap_cons, b64Val?_b64Char s (h s (by simp))]
    exact congrArg _ (ih fun x hx => h x (by simp [hx]))

theorem b64url_roundtrip (bs : List Nat) (h : ∀ b ∈ bs, b < 256) :
    b64urlDecodeBytes (b64urlEncodeBytes bs) = bs := by
  unfold b64urlDecodeBytes b64urlEncodeBytes b64Sextets
  rw [takeWhile_map_b64Char _ (bytesToSextets_lt_64 bs h),
    filterMap_b64Val?_map_b64Char _ (bytesToSextets_lt_64 bs h)]
  exact sextetsToBytes_bytesToSextets bs h

theorem char_toNat_valid (c : Char) :
    c.toNat < 0xd800 ∨ (0xdfff < c.toNat ∧ c.toNat < 0x110000) := by
  rcases c.valid with h | ⟨h1, h2⟩
  · exact Or.inl (UInt32.toNat_lt_of_lt (by decide) h)
  · exact Or.inr ⟨UInt32.lt_toNat_of_lt (by decide) h1, UInt32.toNat_lt_of_lt (by decide) h2⟩

theorem utf8DecodeF_cons (b0 : Nat) (rest : List Nat) :
    utf8DecodeF (b0 :: rest) =
      (utf8Step b0 rest).1 :: utf8DecodeF (utf8Step b0 rest).2 := by
  rw [utf8DecodeF]

theorem utf8DecodeF_encNat (n : Nat)
    (hval : n < 0xd800 ∨ (0xdfff < n ∧ n < 0x110000)) (rest : List Nat) :
    utf8DecodeF (utf8EncodeNat n ++ rest) = Char.ofNat n :: utf8DecodeF rest := by
  have hlt : n < 0x110000 := by omega
  by_cases h1 : n < 0x80
  · have hstep : utf8Step n rest = (Char.ofNat n, rest) := by
      simp only [utf8Step]
      rw [if_pos h1]
    rw [utf8EncodeNat, if_pos h1]
    simp only [List.cons_append, List.nil_append]
    rw [utf8DecodeF_cons, hstep]
  · by_cases h2 : n < 0x800
    · have hstep : utf8Step (0xc0 + n / 64) ((0x80 + n % 64) :: rest) =
          (Char.ofNat n, rest) := by
        simp only [utf8Step]
        rw [if_neg (by omega), if_neg (by omega), if_pos (by omega),
          if_pos (show 0x80 ≤ 0x80 + n % 64 ∧ 0x80 + n % 64 < 0xc0 by omega)]
        rw [show (0xc0 + n / 64 - 0xc0) * 64 + (0x80 + n % 64 - 0x80) = n by omega]
      rw [utf8EncodeNat, if_neg h1, if_pos h2]
      simp only [List.cons_append, List.nil_append]
      rw [utf8DecodeF_cons, hstep]
    · by_cases h3 : n < 0x10000
      · have hcond : contLo (0xe0 + n / 4096) ≤ 0x80 + n / 64 % 64 ∧
            0x80 + n / 64 % 64 < contHi (0xe0 + n / 4096) := by
          unfold contLo contHi
          refine ⟨?_, ?_⟩ <;> (repeat' split) <;> omega
        have hstep : utf8Step (0xe0 + n / 4096)
            ((0x80 + n / 64 % 64) :: (0x80 + n % 64) :: rest) = (Char.ofNat n, rest) := by
          simp only [utf8Step]
          rw [if_neg (by omega), if_neg (by omega), if_neg (by omega), if_pos (by omega),
            if_pos hcond,
            if_pos (show 0x80 ≤ 0x80 + n % 64 ∧ 0x80 + n % 64 < 0xc0 by omega)]
          rw [show (0xe0 + n / 4096 - 0xe0) * 4096 + (0x80 + n / 64 % 64 - 0x80) * 64 +
            (0x80 + n % 64 - 0x80) = n by omega]
        rw [utf8EncodeNat, if_neg h1, if_neg h2, if_pos h3]
        simp only [List.cons_append, List.nil_append]
        rw [utf8DecodeF_cons, hstep]
      · have hcond : contLo (0xf0 + n / 262144) ≤ 0x80 + n / 4096 % 64 ∧
            0x80 + n / 4096 % 64 < contHi (0xf0 + n / 262144) := by
          unfold contLo contHi
          refine ⟨?_, ?_⟩ <;> (repeat' split) <;> omega
        have hstep : utf8Step (0xf0 + n / 262144)
            ((0x80 + n / 4096 % 64) :: (0x80 + n / 64 % 64) :: (0x80 + n % 64) :: rest) =
            (Char.ofNat n, rest) := by
          simp only [utf8Step]
          rw [if_neg (by omega), if_neg (by omega), if_neg (by omega), if_neg (by omega),
            if_pos (by omega), if_pos hcond,
            if_pos (show 0x80 ≤ 0x80 + n / 64 % 64 ∧ 0x80 + n / 64 % 64 < 0xc0 by omega),
            if_pos (show 0x80 ≤ 0x80 + n % 64 ∧ 0x80 + n % 64 < 0xc0 by omega)]
          rw [show (0xf0 + n / 262144 - 0xf0) * 262144 + (0x80 + n / 4096 % 64 - 0x80) * 4096 +
            (0x80 + n / 64 % 64 - 0x80) * 64 + (0x80 + n % 64 - 0x80) = n by omega]
        rw [utf8EncodeNat, if_neg h1, if_neg h2, if_neg h3]
        simp only [List.cons_append, List.nil_append]
        rw [utf8DecodeF_cons, hstep]

theorem utf8DecodeF_encodeChar (c : Char) (rest : List Nat) :
    utf8DecodeF (utf8EncodeChar c ++ rest) = c :: utf8DecodeF rest := by
  rw [utf8EncodeChar, utf8DecodeF_encNat c.toNat (char_toNat_valid c), Char.ofNat_toNat]

theorem utf8DecodeF_utf8Encode (cs : List Char) : utf8DecodeF (utf8Encode cs) = cs := by
  induction cs with
  | nil => rw [show utf8Encode [] = [] from rfl, utf8DecodeF]
  | cons c cs ih =>
    rw [show utf8Encode (c :: cs) = utf8EncodeChar c ++ utf8Encode cs by
      simp [utf8Encode]]
    rw [utf8DecodeF_encodeChar, ih]

theorem utf8EncodeChar_lt_256 (c : Char) : ∀ b ∈ utf8EncodeChar c, b < 256 := by
  have hval := char_toNat_valid c
  rw [utf8EncodeChar, utf8EncodeNat]
  repeat' split
  all_goals intro b hb
  all_goals simp only [List.mem_cons, List.not_mem_nil, or_false] at hb
  · omega
  · rcases hb with rfl | rfl <;> omega
  · rcases hb with rfl | rfl | rfl <;> omega
  · rcases hb with rfl | rfl | rfl | rfl <;> omega

theorem utf8Encode_lt_256 (cs : List Char) : ∀ b ∈ utf8Encode cs, b < 256 := by
  induction cs with
  | nil => intro b hb; simp [utf8Encode] at hb
  | cons c cs ih =>
    intro b hb
    rw [show utf8Encode (c :: cs) = utf8EncodeChar c ++ utf8Encode cs by
      simp [utf8Encode]] at hb
    rcases List.mem_append.mp hb with h | h
    · exact utf8EncodeChar_lt_256 c b h
    · exact ih b h

theorem filterMap_filter_isSome (cs : List Char) :
    (cs.filter (fun c => (b64Val? c).isSome)).filterMap b64Val? = cs.filterMap b64Val? := by
  induction cs with
  | nil => rfl
  | cons c cs ih =>
    cases hb : b64Val? c with
    | none => simp [List.filter_cons, List.filterMap_cons, hb, ih]
    | some v => simp [List.filter_cons, List.filterMap_cons, hb, ih]

theorem bytesToHex_length (bs : List Nat) : (bytesToHex bs).length = 2 * bs.length := by
  unfold bytesToHex
  show (bs.flatMap fun b => [hexDigit (b / 16), hexDigit (b % 16)]).length = 2 * bs.length
  induction bs with
  | nil => rfl
  | cons b bs ih => simp [List.flatMap_cons, ih]; omega

/-! ## Metadata lemmas -/

theorem length_pos_iff_ne_empty (v : String) : 1 ≤ v.length ↔ v ≠ "" := by
  constructor
  · intro h he
    subst he
    exact absurd h (by decide)
  · intro h
    obtain ⟨d⟩ := v
    cases d with
    | nil => exact absurd rfl h
    | cons c cs => simp [String.length_mk]

theorem requireNonEmpty_eq_some_iff (m : RawMetadata) (k v : String) :
    requireNonEmpty m k = some v ↔ metaLookup m k = some (some v) ∧ v ≠ "" := by
  unfold requireNonEmpty
  split
  next w heq =>
    rw [heq]
    by_cases hl : 1 ≤ w.length
    · rw [if_pos hl]
      constructor
      · intro h'
        obtain rfl := Option.some.inj h'
        exact ⟨rfl, (length_pos_iff_ne_empty w).mp hl⟩
      · rintro ⟨h', _⟩
        obtain rfl := Option.some.inj (Option.some.inj h')
        rfl
    · rw [if_neg hl]
      constructor
      · intro h'
        exact Option.noConfusion h'
      · rintro ⟨h', hne⟩
        obtain rfl := Option.some.inj (Option.some.inj h')
        exact absurd ((length_pos_iff_ne_empty w).mpr hne) hl
  next hmiss =>
    constructor
    · intro h'
      exact Option.noConfusion h'
    · rintro ⟨h', _⟩
      exact absurd h' (by intro hcon; exact hmiss _ hcon)

theorem safeParseMetadata_some_iff (m : RawMetadata) :
    (∃ md, safeParseMetadata m = some md) ↔ specRequiredMetadataOk m := by
  unfold specRequiredMetadataOk
  constructor
  · rintro ⟨md, hmd⟩
    unfold safeParseMetadata at hmd
    split at hmd
    next o t c n ho ht hc hn =>
      exact ⟨⟨o, ((requireNonEmpty_eq_some_iff m "objectName" o).mp ho).1,
          ((requireNonEmpty_eq_some_iff m "objectName" o).mp ho).2⟩,
        ⟨t, ((requireNonEmpty_eq_some_iff m "type" t).mp ht).1,
          ((requireNonEmpty_eq_some_iff m "type" t).mp ht).2⟩,
        ⟨c, ((requireNonEmpty_eq_some_iff m "contentType" c).mp hc).1,
          ((requireNonEmpty_eq_some_iff m "contentType" c).mp hc).2⟩,
        ⟨n, ((requireNonEmpty_eq_some_iff m "name" n).mp hn).1,
          ((requireNonEmpty_eq_some_iff m "name" n).mp hn).2⟩⟩
    next =>
      exact Option.noConfusion hmd
  · rintro ⟨⟨v1, hv1, hn1⟩, ⟨v2, hv2, hn2⟩, ⟨v3, hv3, hn3⟩, ⟨v4, hv4, hn4⟩⟩
    refine ⟨⟨v1, v2, v3, v4⟩, ?_⟩
    unfold safeParseMetadata
    rw [(requireNonEmpty_eq_some_iff m "objectName" v1).mpr ⟨hv1, hn1⟩,
      (requireNonEmpty_eq_some_iff m "type" v2).mpr ⟨hv2, hn2⟩,
      (requireNonEmpty_eq_some_iff m "contentType" v3).mpr ⟨hv3, hn3⟩,
      (requireNonEmpty_eq_some_iff m "name" v4).mpr ⟨hv4, hn4⟩]

/-! ## Claims -/

/-- C1: the claim says the Chunked Storage Adapter's configured part
size is at least the storage provider's minimum multipart part size.
The code configures `partSize: 1024` (route.ts line 22), far below the
provider's 5 MiB minimum, so every non-final part the store flushes
violates the provider's constraint and the backend's too-small-part
rejection is reachable — the configuration contradicts the spec's
stated constraint (the repository exists to reproduce exactly this
failure). -/
theorem s3Store_partSize_below_provider_minimum :
    s3Store.partSize = 1024 ∧ s3Store.partSize < providerMinPartSize := by
  decide

/-- C2: identifier codec round-trip — `generateUrl` appends
`encodeId k` (base64url of the UTF-8 key) as the final path segment,
and `getFileIdFromRequest` applied to that segment returns exactly `k`:
the encoding applied when issuing the handle is the one parsed back. -/
theorem generateUrl_roundtrip (proto host basePath k : String) :
    generateUrl proto host basePath k =
      (proto ++ "://" ++ host ++ basePath ++ "/") ++ encodeId k ∧
    getFileIdFromRequest (encodeId k) = k := by
  refine ⟨rfl, ?_⟩
  show String.mk (utf8DecodeF (b64urlDecodeBytes (b64urlEncodeBytes (utf8Encode k.data)))) = k
  rw [b64url_roundtrip _ (utf8Encode_lt_256 k.data), utf8DecodeF_utf8Encode]

/-- C3 counterexample: `"!!!"` is not a valid base64url encoding of any
storage key, yet `getFileIdFromRequest` succeeds on it — it returns the
empty string rather than failing with `InvalidIdentifier`. -/
theorem getFileIdFromRequest_malformed_decodes :
    getFileIdFromRequest "!!!" = "" := by
  show String.mk (utf8DecodeF (b64urlDecodeBytes "!!!".data)) = ""
  rw [show b64urlDecodeBytes "!!!".data = [] by decide]
  rw [utf8DecodeF]

/-- C3 (amended): decoding a malformed external identifier does not
fail at all — `getFileIdFromRequest` totally decodes every input,
stopping at `=` padding and dropping other undecodable characters
(Node also decodes the regular-alphabet `+` and `/`); an identifier
none of whose characters is decodable yields the empty key, and
"no such upload" can only arise later, at datastore lookup. -/
theorem getFileIdFromRequest_malformed_empty (s : String)
    (h : ∀ c ∈ s.data, b64Val? c = none) :
    getFileIdFromRequest s = "" := by
  show String.mk (utf8DecodeF (sextetsToBytes
    ((s.data.takeWhile fun c => !(c == '=')).filterMap b64Val?))) = ""
  rw [List.filterMap_eq_nil_iff.mpr fun c hc => h c (List.takeWhile_subset _ hc)]
  rw [show sextetsToBytes [] = [] from rfl, utf8DecodeF]

theorem getFileIdFromRequest_malformed_empty_witness :
    (∀ c ∈ "!!!".data, b64Val? c = none) ∧ getFileIdFromRequest "!!!" = "" :=
  ⟨by decide, getFileIdFromRequest_malformed_empty "!!!" (by decide)⟩

/-- C4: creation-time validation succeeds exactly when all four
required keys (`objectName`, `type`, `contentType`, `name`) are present
with non-empty string values, and otherwise `onUploadCreate` throws the
`{status_code: 400, body: "invalid metadata"}` client error. -/
theorem onUploadCreate_valid_iff (m : RawMetadata) :
    ((∃ md, onUploadCreate m = .ok md) ↔ specRequiredMetadataOk m) ∧
    (¬ specRequiredMetadataOk m →
      onUploadCreate m = .error ⟨400, "invalid metadata"⟩) := by
  constructor
  · constructor
    · rintro ⟨md, hmd⟩
      unfold onUploadCreate at hmd
      cases hs : safeParseMetadata m with
      | none =>
        rw [hs] at hmd
        exact Except.noConfusion hmd
      | some md' =>
        exact (safeParseMetadata_some_iff m).mp ⟨md', hs⟩
    · intro hspec
      obtain ⟨md, hmd⟩ := (safeParseMetadata_some_iff m).mpr hspec
      refine ⟨md, ?_⟩
      unfold onUploadCreate
      rw [hmd]
  · intro hnspec
    cases hs : safeParseMetadata m with
    | some md => exact absurd ((safeParseMetadata_some_iff m).mp ⟨md, hs⟩) hnspec
    | none =>
      unfold onUploadCreate
      rw [hs]

theorem onUploadCreate_valid_iff_witness :
    onUploadCreate [] = .error ⟨400, "invalid metadata"⟩ :=
  (onUploadCreate_valid_iff []).2
    (by rintro ⟨⟨v, hv, _⟩, _⟩; exact Option.noConfusion hv)

/-- C5 counterexample: with a storage path present and a backend where
the object is missing, integrity verification throws, and
`onUploadFinish` fails with that error — the already-completed upload
is not acknowledged with 201, contradicting the claim that verification
failure does not fail the completion. -/
theorem onUploadFinish_error_counterexample :
    (onUploadFinish (some "debug/x") none (fun _ => none) (fun _ => none)
        (fun _ => none)).1 = .error ⟨"NoSuchKey"⟩ ∧
    ∀ r, (onUploadFinish (some "debug/x") none (fun _ => none) (fun _ => none)
        (fun _ => none)).1 ≠ .ok r :=
  ⟨rfl, fun _ h => Except.noConfusion h⟩

/-- C5 (amended): a failure thrown during integrity verification is
logged but rethrown — it propagates out of `onUploadFinish`, so the
completion result fails with that error instead of returning the 201
acknowledgement; 201 is returned only when verification completes
without error (or the upload has no storage path). -/
theorem onUploadFinish_propagates_error (fileKey : String) (objectName : Option String)
    (s3 : String → Option (List (List Nat))) (parseInfo : List Nat → Option InfoData)
    (fixtures : String → Option (List Nat)) (e : JsError)
    (h : (verifyFileIntegrity fileKey (fileKey ++ ".info") objectName s3 parseInfo
        fixtures).1 = .error e) :
    (onUploadFinish (some fileKey) objectName s3 parseInfo fixtures).1 = .error e := by
  rcases hv : verifyFileIntegrity fileKey (fileKey ++ ".info") objectName s3 parseInfo
    fixtures with ⟨res, vlog⟩
  rw [hv] at h
  change res = Except.error e at h
  subst h
  simp only [onUploadFinish, hv]

theorem onUploadFinish_propagates_error_witness :
    (verifyFileIntegrity "debug/x" ("debug/x" ++ ".info") none (fun _ => none)
        (fun _ => none) (fun _ => none)).1 = .error ⟨"NoSuchKey"⟩ ∧
    (onUploadFinish (some "debug/x") none (fun _ => none) (fun _ => none)
        (fun _ => none)).1 = .error ⟨"NoSuchKey"⟩ :=
  ⟨rfl, onUploadFinish_propagates_error "debug/x" none (fun _ => none) (fun _ => none)
    (fun _ => none) ⟨"NoSuchKey"⟩ rfl⟩

/-- C6: when the object, its `.info` record and (here) a reference copy
are all retrievable, `verifyFileIntegrity` returns the SHA-256 hex
digest of the retrieved object bytes, logs the reference digest, logs
a corruption flag exactly when the reference digest differs from the
stored object's digest, and logs the comparison of the reported
`.info` size against the actual stored byte length. -/
theorem verifyFileIntegrity_spec (fileKey infoKey nm : String)
    (s3 : String → Option (List (List Nat))) (parseInfo : List Nat → Option InfoData)
    (fixtures : String → Option (List Nat))
    (fileChunks infoChunks : List (List Nat)) (orig : List Nat) (info : InfoData)
    (hfile : s3 fileKey = some fileChunks)
    (hinfo : s3 infoKey = some infoChunks)
    (hparse : parseInfo infoChunks.flatten = some info)
    (hfix : fixtures nm = some orig) :
    verifyFileIntegrity fileKey infoKey (some nm) s3 parseInfo fixtures =
      (.ok ⟨bytesToHex (sha256 fileChunks.flatten), some (bytesToHex (sha256 orig)),
          fileChunks.flatten, info⟩,
        [.checksumHeader fileKey (some nm),
         .originalChecksumLine (bytesToHex (sha256 orig)),
         .uploadedChecksumLine (bytesToHex (sha256 fileChunks.flatten)),
         .checksumMatchLine
           (!(bytesToHex (sha256 orig) == bytesToHex (sha256 fileChunks.flatten))),
         .sizeLine fileChunks.flatten.length info.size
           (fileChunks.flatten.length == info.size)]) := by
  simp only [verifyFileIntegrity, downloadFileFromS3, computeChecksum, hfile, hinfo,
    hparse, hfix]
  rfl

theorem verifyFileIntegrity_spec_witness :
    ((fun _ : String => some [[(1 : Nat)], [2, 3]]) "f" = some [[1], [2, 3]]) ∧
    ((fun _ : String => some [[(1 : Nat)], [2, 3]]) "f.info" = some [[1], [2, 3]]) ∧
    ((fun _ : List Nat => some (InfoData.mk 3)) ([[(1 : Nat)], [2, 3]]).flatten =
      some (InfoData.mk 3)) ∧
    ((fun _ : String => some [(9 : Nat)]) "o" = some [9]) ∧
    verifyFileIntegrity "f" "f.info" (some "o") (fun _ => some [[1], [2, 3]])
        (fun _ => some (InfoData.mk 3)) (fun _ => some [9]) =
      (.ok ⟨bytesToHex (sha256 [1, 2, 3]), some (bytesToHex (sha256 [9])),
          [1, 2, 3], InfoData.mk 3⟩,
        [.checksumHeader "f" (some "o"),
         .originalChecksumLine (bytesToHex (sha256 [9])),
         .uploadedChecksumLine (bytesToHex (sha256 [1, 2, 3])),
         .checksumMatchLine (!(bytesToHex (sha256 [9]) == bytesToHex (sha256 [1, 2, 3]))),
         .sizeLine 3 3 (3 == 3)]) :=
  ⟨rfl, rfl, rfl, rfl,
    verifyFileIntegrity_spec "f" "f.info" "o" (fun _ => some [[1], [2, 3]])
      (fun _ => some (InfoData.mk 3)) (fun _ => some [9]) [[1], [2, 3]] [[1], [2, 3]]
      [9] (InfoData.mk 3) rfl rfl rfl rfl⟩

/-- C7: for validated metadata and the 16 random bytes drawn by
`randomBytes(16)`, the derived storage key is exactly
`debug/file-<hex>-<stem><ext>` — under the `debug/` namespace, with a
32-character hex random component, the basename of
`metadata.objectName` without its extension, and that extension. -/
theorem namingFunction_spec (rb : List Nat) (md : UploadMetadata)
    (hlen : rb.length = 16) (hbytes : ∀ b ∈ rb, b < 256) :
    namingFunction rb md =
      "debug/" ++ ("file-" ++ bytesToHex rb ++ "-" ++
        pathBasename md.objectName (pathExtname md.objectName)) ++
      pathExtname md.objectName ∧
    (bytesToHex rb).length = 32 ∧
    ∃ stem, namingFunction rb md = "debug/" ++ stem := by
  refine ⟨rfl, ?_, ?_⟩
  · rw [bytesToHex_length, hlen]
  · exact ⟨_, String.append_assoc _ _ _⟩

theorem namingFunction_spec_witness :
    (List.replicate 16 0).length = 16 ∧ (∀ b ∈ List.replicate 16 (0 : Nat), b < 256) ∧
    (namingFunction (List.replicate 16 0)
        ⟨"report.docx", "application/x", "application/x", "report.docx"⟩ =
      "debug/" ++ ("file-" ++ bytesToHex (List.replicate 16 0) ++ "-" ++
        pathBasename "report.docx" (pathExtname "report.docx")) ++
      pathExtname "report.docx" ∧
    (bytesToHex (List.replicate 16 0)).length = 32 ∧
    ∃ stem, namingFunction (List.replicate 16 0)
        ⟨"report.docx", "application/x", "application/x", "report.docx"⟩ =
      "debug/" ++ stem) :=
  ⟨by decide, by decide,
    namingFunction_spec (List.replicate 16 0)
      ⟨"report.docx", "application/x", "application/x", "report.docx"⟩
      (by decide) (by decide)⟩

/-- C8 (create pipeline modelled from the spec): when creation metadata
fails validation, `handleCreate` leaves the session state exactly as it
was and reports only the `{status_code: 400, body: "invalid metadata"}`
validation error — no session is (even partially) created. -/
theorem handleCreate_invalid_preserves_state (st : ServerState) (raw : RawMetadata)
    (key : String) (h : safeParseMetadata raw = none) :
    handleCreate st raw key = (st, .error ⟨400, "invalid metadata"⟩) := by
  unfold handleCreate onUploadCreate
  rw [h]

theorem handleCreate_invalid_preserves_state_witness :
    safeParseMetadata [] = none ∧
    handleCreate ⟨[]⟩ [] "k" = (⟨[]⟩, .error ⟨400, "invalid metadata"⟩) :=
  ⟨rfl, handleCreate_invalid_preserves_state ⟨[]⟩ [] "k" rfl⟩

/-- C9: `getFileIdFromRequest` is total and never raises — its embedding
of Node's base64url decoding processes every input string: decoding
stops at the first `=` padding character and silently ignores every
other undecodable character, so decoding any string equals decoding
the subsequence of decodable characters of its pre-padding prefix, and
every input produces some string. -/
theorem getFileIdFromRequest_ignores_invalid_chars (s : String) :
    getFileIdFromRequest s =
      getFileIdFromRequest (String.mk
        ((s.data.takeWhile fun c => !(c == '=')).filter fun c => (b64Val? c).isSome)) := by
  have hkeep : (((s.data.takeWhile fun c => !(c == '=')).filter
      fun c => (b64Val? c).isSome).takeWhile fun c => !(c == '=')) =
      ((s.data.takeWhile fun c => !(c == '=')).filter fun c => (b64Val? c).isSome) := by
    rw [List.takeWhile_eq_self_iff]
    intro x hx
    have hx' : x ∈ s.data.takeWhile (fun c => !(c == '=')) :=
      List.mem_of_mem_filter hx
    have hpx := List.mem_takeWhile_imp hx'
    exact hpx
  show String.mk (utf8DecodeF (sextetsToBytes
      ((s.data.takeWhile fun c => !(c == '=')).filterMap b64Val?))) =
    String.mk (utf8DecodeF (sextetsToBytes
      ((((s.data.takeWhile fun c => !(c == '=')).filter fun c =>
        (b64Val? c).isSome).takeWhile fun c => !(c == '=')).filterMap b64Val?)))
  rw [hkeep, filterMap_filter_isSome]

/-- C10: a finished upload without a storage path (`upload.storage?.path`
undefined) is acknowledged with `status_code` 201 while no integrity
verification happens at all: the result is independent of the storage,
info-parsing and fixture oracles and the log holds only the
"Upload finished" line. -/
theorem onUploadFinish_no_storage_path (objectName : Option String)
    (s3 : String → Option (List (List Nat))) (parseInfo : List Nat → Option InfoData)
    (fixtures : String → Option (List Nat)) :
    onUploadFinish none objectName s3 parseInfo fixtures =
      (.ok ⟨201⟩, [.uploadFinished]) := rfl

end UploadRoute
